import Mathlib

/-!
Verification development for the stock-analysis backend.

The JavaScript sources are shallowly embedded over exact rational arithmetic
(`ℚ` in place of IEEE doubles), with these conventions:

* `Number.prototype.toFixed(2)` followed by `parseFloat` is modelled as
  `toFixed2` (round to the nearest multiple of 1/100, halves up), and
  `toFixed(4)` as `toFixed4`.
* A JavaScript value that may be `null` is an `Option`; JS truthiness of a
  possibly-null number is `truthyQ` (both `null` and `0` are falsy), of a
  possibly-null string `truthyS` (both `null` and `""` are falsy).
* Relational comparisons against a possibly-null number use `Option.getD 0`,
  matching the JS coercion of `null` to `0` in `<` / `>`.
* `String.prototype.includes` is `jsIncludes` (substring containment).
* `async` calls that can reject are values of `Except String _`; callers'
  `try`/`catch` becomes a `match` on that value.
* `Math.random`-derived quantities are explicit function parameters.
-/

set_option maxHeartbeats 1000000
set_option maxRecDepth 4000

/-- JS `toFixed` rounding: nearest integer, halves rounded up. -/
def toFixed2 (x : ℚ) : ℚ := (round (x * 100) : ℚ) / 100

/-- Model of `parseFloat(x.toFixed(4))`. -/
def toFixed4 (x : ℚ) : ℚ := (round (x * 10000) : ℚ) / 10000

/-- JS truthiness of a possibly-null number: `null` and `0` are falsy. -/
def truthyQ : Option ℚ → Bool
  | none => false
  | some v => v != 0

/-- JS truthiness of a possibly-null string: `null` and `""` are falsy. -/
def truthyS : Option String → Bool
  | none => false
  | some s => s != ""

/-- First JS-truthy string in a `||` chain, else the chain's final default. -/
def firstTruthyS (xs : List (Option String)) (d : String) : String :=
  match xs with
  | [] => d
  | none :: rest => firstTruthyS rest d
  | some s :: rest => if s = "" then firstTruthyS rest d else s

/-- First JS-truthy number in a `||` chain, else the chain's final default. -/
def firstTruthyQ (xs : List (Option ℚ)) (d : ℚ) : ℚ :=
  match xs with
  | [] => d
  | none :: rest => firstTruthyQ rest d
  | some v :: rest => if v = 0 then firstTruthyQ rest d else v

/-- Auxiliary for `jsIncludes`: does the second list start with the first? -/
def startsWithSub : List Char → List Char → Bool
  | [], _ => true
  | _ :: _, [] => false
  | a :: as, b :: bs => a == b && startsWithSub as bs

/-- Auxiliary for `jsIncludes`: does the second list contain the first? -/
def containsSub (sub : List Char) : List Char → Bool
  | [] => startsWithSub sub []
  | c :: rest => startsWithSub sub (c :: rest) || containsSub sub rest

/-- Model of JS `s.includes(sub)`. -/
def jsIncludes (s sub : String) : Bool := containsSub sub.toList s.toList

namespace TechnicalIndicators

/-! Embedding of `class TechnicalIndicators`
(`src/services/stockService - 複製 (2).js`, lines 448-839; the same class is
what `require('./technicalIndicators')` resolves to for the routes). -/

/-- The list of consecutive close-price changes `prices[i] - prices[i-1]`,
as walked by the index loops of `calculateRSI`. -/
def changesOf (prices : List ℚ) : List ℚ :=
  (prices.zip prices.tail).map (fun p => p.2 - p.1)

/-- One iteration of the Wilder-smoothing loop of `calculateRSI`
(lines 474-484): state is the pair `(avgGain, avgLoss)`. -/
def rsiStep (period : ℕ) (a : ℚ × ℚ) (change : ℚ) : ℚ × ℚ :=
  if 0 < change then
    ((a.1 * ((period : ℚ) - 1) + change) / period, (a.2 * ((period : ℚ) - 1)) / period)
  else
    ((a.1 * ((period : ℚ) - 1)) / period, (a.2 * ((period : ℚ) - 1) + (-change)) / period)

/-- The pair `(avgGain, avgLoss)` after the two loops of `calculateRSI`
(lines 461-484): the seed averages come from the first `period` changes
(a non-positive change contributes `Math.abs(change)` to the losses), and
the remaining changes are folded through the Wilder smoothing step. -/
def rsiAvgs (prices : List ℚ) (period : ℕ) : ℚ × ℚ :=
  ((changesOf prices).drop period).foldl (rsiStep period)
    (((((changesOf prices).take period).map (fun c => if 0 < c then c else 0)).sum : ℚ) / period,
     (((((changesOf prices).take period).map (fun c => if 0 < c then 0 else -c)).sum : ℚ) / period))

/-- Embedding of `calculateRSI(prices, period)` (lines 452-492): `null` when fewer than
`period + 1` prices exist; `100` when the final average loss is `0`; else
`100 - 100/(1 + avgGain/avgLoss)`. -/
def calculateRSI (prices : List ℚ) (period : ℕ) : Option ℚ :=
  if prices.length < period + 1 then none
  else if (rsiAvgs prices period).2 = 0 then some 100
  else some (100 - 100 / (1 + (rsiAvgs prices period).1 / (rsiAvgs prices period).2))

/-- The arithmetic mean of the last `period` prices (`slice(-period)`). -/
def smaOf (prices : List ℚ) (period : ℕ) : ℚ :=
  (prices.drop (prices.length - period)).sum / period

/-- Embedding of `calculateSMA(prices, period)` (lines 497-505): mean of the last `period`
prices, `null` when fewer than `period` prices exist. -/
def calculateSMA (prices : List ℚ) (period : ℕ) : Option ℚ :=
  if prices.length < period then none
  else some (smaOf prices period)

/-- Embedding of `calculateSMAHistory(prices, period)` (lines 510-526): one trailing-window
mean per index from `period - 1` to `length - 1`, each pushed through
`parseFloat(sma.toFixed(2))`; the loop index `i` corresponds to the window
start `k = i - period + 1`. -/
def calculateSMAHistory (prices : List ℚ) (period : ℕ) : List ℚ :=
  if prices.length < period then []
  else
    (List.range (prices.length + 1 - period)).map
      (fun k => toFixed2 (((prices.drop k).take period).sum / period))

/-- Embedding of `calculateEMAAtIndex(prices, period, index)` (lines 549-568): EMA over the
prefix `prices[0..index]`, seeded with the mean of the first `period`
prices; `null` when `index < period - 1`. -/
def calculateEMAAtIndex (prices : List ℚ) (period : ℕ) (index : ℕ) : Option ℚ :=
  if index + 1 < period then none
  else
    let multiplier : ℚ := 2 / ((period : ℚ) + 1)
    let slice := prices.take (index + 1)
    let seed := (slice.take period).sum / period
    some ((slice.drop period).foldl (fun e p => (p - e) * multiplier + e) seed)

/-- Embedding of `calculateEMAFromArray(values, period)` (lines 573-584): same recurrence
over a plain array, but returning `0` (not `null`) when the array is
shorter than `period`. -/
def calculateEMAFromArray (values : List ℚ) (period : ℕ) : ℚ :=
  if values.length < period then 0
  else
    let multiplier : ℚ := 2 / ((period : ℚ) + 1)
    let seed := (values.take period).sum / period
    (values.drop period).foldl (fun e p => (p - e) * multiplier + e) seed

/-- One output point of `calculateMACDHistory` / `calculateMACDFull`. -/
structure MacdPoint where
  macd : ℚ
  signal : ℚ
  histogram : ℚ
  deriving DecidableEq

/-- The MACD-line value computed at loop index `i` of `calculateMACDHistory`
(lines 607-623): `fastEMA - slowEMA` when the JS guard
`if (fastEMA && slowEMA)` passes (both non-`null` and nonzero),
`none` when the day is skipped. -/
def macdAt (prices : List ℚ) (fast slow : ℕ) (i : ℕ) : Option ℚ :=
  match calculateEMAAtIndex prices fast i, calculateEMAAtIndex prices slow i with
  | some fe, some se => if fe ≠ 0 ∧ se ≠ 0 then some (fe - se) else none
  | _, _ => none

/-- One iteration of the `calculateMACDHistory` loop (lines 607-650):
state is `(macdLine, result)`; a day whose EMA guard fails leaves the
state unchanged, otherwise the day's MACD value is pushed and a point is
emitted — with `signal = EMA(macdLine, signalPeriod)` once `macdLine` has at
least `signalPeriod` entries, else `signal = 0, histogram = macd`. -/
def macdStep (prices : List ℚ) (fast slow signal : ℕ)
    (st : List ℚ × List MacdPoint) (i : ℕ) : List ℚ × List MacdPoint :=
  match macdAt prices fast slow i with
  | none => st
  | some macd =>
    if signal ≤ (st.1 ++ [macd]).length then
      (st.1 ++ [macd],
       st.2 ++ [⟨toFixed4 macd,
                 toFixed4 (calculateEMAFromArray (st.1 ++ [macd]) signal),
                 toFixed4 (macd - calculateEMAFromArray (st.1 ++ [macd]) signal)⟩])
    else
      (st.1 ++ [macd], st.2 ++ [⟨toFixed4 macd, 0, toFixed4 macd⟩])

/-- Embedding of `calculateMACDHistory(prices, fast, slow, signal)` (lines 589-660):
empty when `length < slow + signal`, else the loop above over indices
`slow - 1 .. length - 1`. -/
def calculateMACDHistory (prices : List ℚ) (fast slow signal : ℕ) : List MacdPoint :=
  if prices.length < slow + signal then []
  else
    (((List.range prices.length).drop (slow - 1)).foldl
      (macdStep prices fast slow signal) ([], [])).2

/-- The full running MACD-line sequence of `calculateMACDHistory`: the values
pushed onto `macdLine` over the whole index loop. -/
def macdLineSeq (prices : List ℚ) (fast slow : ℕ) : List ℚ :=
  ((List.range prices.length).drop (slow - 1)).filterMap (macdAt prices fast slow)

/-- Specification of the `j`-th emitted point of `calculateMACDHistory` in
terms of the running MACD-line sequence `L`: the point carries the 4-decimal
rounding of `L[j]`; while fewer than `signal` MACD-line points exist the
signal line is `0` and the histogram repeats the rounded MACD value, and
from `signal` points onward the signal line is the (rounded) EMA of the
first `j + 1` MACD-line points. -/
def macdPointSpec (L : List ℚ) (signal : ℕ) (j : ℕ) : MacdPoint :=
  let m := (L.get? j).getD 0
  if j + 1 < signal then ⟨toFixed4 m, 0, toFixed4 m⟩
  else
    let s := calculateEMAFromArray (L.take (j + 1)) signal
    ⟨toFixed4 m, toFixed4 s, toFixed4 (m - s)⟩

/-- Result record of `calculateBollingerBands`. -/
structure BollBands where
  upper : ℚ
  middle : ℚ
  lower : ℚ
  deriving DecidableEq

/-- The unrounded quantities of `calculateBollingerBands` (lines 699-719):
`middle` is the trailing SMA, `upper`/`lower` are `middle ± stdDev·σ` where
`σ = Math.sqrt(variance)` of the trailing window.  `Math.sqrt` is an
irrational operation, so it is abstracted as the function parameter
`sqrtFn`; every property proved below holds for an arbitrary `sqrtFn`, and
concrete evaluations instantiate it with an exact square root. -/
def bollingerRaw (sqrtFn : ℚ → ℚ) (prices : List ℚ) (period : ℕ) (stdDev : ℚ) : BollBands :=
  let sma := smaOf prices period
  let relevantPrices := prices.drop (prices.length - period)
  let variance := ((relevantPrices.map (fun price => (price - sma) * (price - sma))).sum) / period
  let standardDeviation := sqrtFn variance
  ⟨sma + stdDev * standardDeviation, sma, sma - stdDev * standardDeviation⟩

/-- Embedding of `calculateBollingerBands(prices, period, stdDev)` (lines 699-719): `null`
when fewer than `period` prices exist, otherwise the three band values each
pushed through `parseFloat(x.toFixed(2))`. -/
def calculateBollingerBands (sqrtFn : ℚ → ℚ) (prices : List ℚ) (period : ℕ) (stdDev : ℚ) :
    Option BollBands :=
  if prices.length < period then none
  else
    let raw := bollingerRaw sqrtFn prices period stdDev
    some ⟨toFixed2 raw.upper, toFixed2 raw.middle, toFixed2 raw.lower⟩

end TechnicalIndicators

namespace StockService

/-! Embedding of `class StockService` (`src/services/stockService.js`).
Upstream provider calls are `Except String _` values: `.ok` models a
resolved promise, `.error` a rejection carrying the error message. -/

/-- Normalized quote record produced by the provider services
(`yahooFinanceService.getQuote` / `finnhubService.getQuote`). -/
structure Quote where
  symbol : String
  currentPrice : ℚ
  change : ℚ
  changePercent : ℚ
  high : ℚ
  low : ℚ
  openPrice : ℚ
  previousClose : ℚ
  volume : ℚ
  timestamp : ℤ
  deriving DecidableEq

/-- Embedding of `StockService.getQuote(symbol)` (`src/services/stockService.js`,
lines 9-21): try the primary (Yahoo) provider; on rejection try the
secondary (Finnhub); when both reject, rethrow the primary's error
(`throw error`, not `err`). The two provider results are the inputs. -/
def getQuote (primary secondary : Except String Quote) : Except String Quote :=
  match primary with
  | .ok q => .ok q
  | .error e =>
    match secondary with
    | .ok q => .ok q
    | .error _ => .error e

/-- Raw profile record as returned by a provider, before merging.  Every
field is independently nullable (`none` models JS `null`/`undefined`).
The Yahoo normalizer only ever sets `finnhubIndustry`, but
`StockService.getProfile` defensively also reads an `industry` field, so
both are modelled. -/
structure RawProfile where
  name : Option String
  country : Option String
  currency : Option String
  exchange : Option String
  finnhubIndustry : Option String
  industry : Option String
  marketCapitalization : Option ℚ
  weburl : Option String
  deriving DecidableEq

/-- Merged profile returned by `StockService.getProfile`. -/
structure MergedProfile where
  name : String
  country : String
  currency : String
  exchange : String
  finnhubIndustry : String
  marketCapitalization : ℚ
  weburl : String
  deriving DecidableEq

/-- The fallback record returned by `getProfile` when the primary fetch
throws (`src/services/stockService.js`, lines 92-101). -/
def fallbackProfile (symbol : String) : MergedProfile :=
  ⟨symbol, "N/A", "USD", "N/A", "N/A", 0, ""⟩

/-- The field-by-field `||`-chain merge of `getProfile`
(`src/services/stockService.js`, lines 63-81): for each field the first
JS-truthy value among primary's, then secondary's, then a hardcoded
default; the industry chain also consults the primary's plain `industry`
field, and the default for `name` is the symbol itself. -/
def mergeProfiles (symbol : String) (yp : RawProfile) (fp : Option RawProfile) :
    MergedProfile :=
  { name := firstTruthyS [yp.name, fp.bind RawProfile.name] symbol
    country := firstTruthyS [yp.country, fp.bind RawProfile.country] "N/A"
    currency := firstTruthyS [yp.currency, fp.bind RawProfile.currency] "USD"
    exchange := firstTruthyS [yp.exchange, fp.bind RawProfile.exchange] "N/A"
    finnhubIndustry :=
      firstTruthyS [yp.finnhubIndustry, yp.industry, fp.bind RawProfile.finnhubIndustry] "N/A"
    marketCapitalization :=
      firstTruthyQ [yp.marketCapitalization, fp.bind RawProfile.marketCapitalization] 0
    weburl := firstTruthyS [yp.weburl, fp.bind RawProfile.weburl] "" }

/-- Embedding of `StockService.getProfile(symbol)` (`src/services/stockService.js`,
lines 26-103): fetch the primary profile (outer `catch` returns the
fallback record); when the primary lacks a truthy industry or a positive
market cap, attempt the secondary (its own failure degrades to `null`);
merge field-by-field with `mergeProfiles`. -/
def getProfile (symbol : String)
    (yahooFetch finnhubFetch : Except String RawProfile) : MergedProfile :=
  match yahooFetch with
  | .error _ => fallbackProfile symbol
  | .ok yp =>
    let hasIndustry := truthyS yp.finnhubIndustry || truthyS yp.industry
    let hasMarketCap :=
      match yp.marketCapitalization with
      | some v => decide (0 < v)
      | none => false
    let finnhubProfile : Option RawProfile :=
      if !hasIndustry || !hasMarketCap then
        match finnhubFetch with
        | .ok p => some p
        | .error _ => none
      else none
    mergeProfiles symbol yp finnhubProfile

end StockService

namespace Analysis

/-! Embedding of the holdings-analysis route and its helpers
(`src/routes/analysis.js`). -/

/-- The `technical` indicator snapshot consumed by `calculateSmartPrices`
and `calculateBaseConfidence`: each field may be `null` (upstream
degradation sets `rsi: null`, `ma50: null`, ..., `bollingerBands: null`). -/
structure Technical where
  rsi : Option ℚ
  ma50 : Option ℚ
  ma200 : Option ℚ
  bollingerBands : Option TechnicalIndicators.BollBands
  deriving DecidableEq

/-- The parts of the `signals` record of `calculateTechnicalSignals` that
`calculateSmartPrices` and `calculateBaseConfidence` read: the two score
tallies and the three texts probed with `String.prototype.includes`. -/
structure Signals where
  bullishScore : ℚ
  bearishScore : ℚ
  macdText : String
  maText : String
  overall : String
  deriving DecidableEq

/-- The profit percentage `((currentPrice - buyPrice) / buyPrice) * 100`
computed at the top of `calculateSmartPrices` (line 444). -/
def pnlOf (currentPrice buyPrice : ℚ) : ℚ :=
  (currentPrice - buyPrice) / buyPrice * 100

/-- Stop-loss profit/loss ladder of `calculateSmartPrices`
(`src/routes/analysis.js`, lines 449-472).  The human-readable reason
strings are omitted throughout; they do not affect the numeric levels. -/
def stopLossLadder (currentPrice buyPrice : ℚ) : ℚ :=
  if 0 < pnlOf currentPrice buyPrice then
    if 20 < pnlOf currentPrice buyPrice then max (buyPrice * 1.10) (currentPrice * 0.90)
    else if 10 < pnlOf currentPrice buyPrice then max (buyPrice * 1.05) (currentPrice * 0.92)
    else max buyPrice (currentPrice * 0.93)
  else
    if pnlOf currentPrice buyPrice < -20 then currentPrice * 0.90
    else if pnlOf currentPrice buyPrice < -10 then currentPrice * 0.88
    else min (buyPrice * 0.90) (currentPrice * 0.88)

/-- MA200 support adjustment of the stop-loss (lines 538-543): only entered
when `technical.ma200` is JS-truthy. -/
def stopLossAdjustMa200 (currentPrice : ℚ) (ma200 : Option ℚ) (s : ℚ) : ℚ :=
  match ma200 with
  | some m => if m ≠ 0 ∧ currentPrice < m ∧ s < m * 0.95 then max s (m * 0.95) else s
  | none => s

/-- Stop-loss level of `calculateSmartPrices` before the final 2-decimal
formatting: ladder, then MA200 adjustment, then the final clamp
`Math.min(stopLoss, currentPrice * 0.95)` (line 560).  In the source the
three levels are mutated in one function body, but the stop-loss value
never reads the add-more or target values, so its data flow is faithfully
isolated here (likewise for the other two levels). -/
def smartStopLoss (currentPrice buyPrice : ℚ) (technical : Technical) : ℚ :=
  min (stopLossAdjustMa200 currentPrice technical.ma200 (stopLossLadder currentPrice buyPrice))
    (currentPrice * 0.95)

/-- Add-more profit/loss ladder (lines 475-494); in the profit branch the
JS comparison `technical.rsi > 70` coerces `null` to `0`. -/
def addMoreLadder (currentPrice buyPrice : ℚ) (rsi : Option ℚ) : ℚ :=
  if 0 < pnlOf currentPrice buyPrice then
    if 70 < rsi.getD 0 then currentPrice * 0.93
    else currentPrice * 0.95
  else
    if pnlOf currentPrice buyPrice < -30 then currentPrice * 0.98
    else if pnlOf currentPrice buyPrice < -20 then currentPrice * 0.95
    else currentPrice * 0.92

/-- MA50 support adjustment of the add-more level (lines 526-531). -/
def addMoreAdjustMa50 (currentPrice : ℚ) (ma50 : Option ℚ) (a : ℚ) : ℚ :=
  match ma50 with
  | some m => if m ≠ 0 ∧ currentPrice < m ∧ m < a then m * 0.98 else a
  | none => a

/-- Lower-Bollinger adjustment of the add-more level (lines 545-551). -/
def addMoreAdjustBoll (bands : Option TechnicalIndicators.BollBands)
    (currentPrice : ℚ) (a : ℚ) : ℚ :=
  match bands with
  | some b =>
    if b.lower ≠ 0 ∧ currentPrice < b.lower * 1.05 then min a (b.lower * 1.02) else a
  | none => a

/-- Add-more level before the final formatting: ladder, MA50 adjustment,
lower-Bollinger adjustment, then the final clamp
`Math.min(addMorePrice, currentPrice * 0.98)` (line 561). -/
def smartAddMore (currentPrice buyPrice : ℚ) (technical : Technical) : ℚ :=
  min
    (addMoreAdjustBoll technical.bollingerBands currentPrice
      (addMoreAdjustMa50 currentPrice technical.ma50
        (addMoreLadder currentPrice buyPrice technical.rsi)))
    (currentPrice * 0.98)

/-- Target profit/loss ladder (lines 497-523), including the
bullish-and-weak-RSI raise of the loss branch (lines 519-522; the JS
comparison `technical.rsi < 50` coerces `null` to `0`, hence is true for
a degraded RSI). -/
def targetLadder (currentPrice buyPrice : ℚ) (rsi : Option ℚ) (signals : Signals) : ℚ :=
  if 0 < pnlOf currentPrice buyPrice then
    if jsIncludes signals.overall "看多" then currentPrice * 1.15
    else currentPrice * 1.08
  else
    let breakEvenTarget := buyPrice * 1.05
    let base :=
      if pnlOf currentPrice buyPrice < -30 then buyPrice
      else if pnlOf currentPrice buyPrice < -20 then breakEvenTarget
      else max breakEvenTarget (currentPrice * 1.10)
    if jsIncludes signals.overall "看多" ∧ rsi.getD 0 < 50 then
      max base (buyPrice * 1.10)
    else base

/-- MA50 breakout raise of the target (lines 532-535). -/
def targetAdjustMa50 (currentPrice : ℚ) (ma50 : Option ℚ) (t : ℚ) : ℚ :=
  match ma50 with
  | some m => if m ≠ 0 ∧ currentPrice < m ∧ t < m * 1.05 then max t (m * 1.05) else t
  | none => t

/-- Upper-Bollinger raise of the target (lines 553-556). -/
def targetAdjustBoll (bands : Option TechnicalIndicators.BollBands) (t : ℚ) : ℚ :=
  match bands with
  | some b => if b.upper ≠ 0 ∧ t < b.upper then max t (b.upper * 0.98) else t
  | none => t

/-- Target level before the final formatting: ladder, MA50 raise,
upper-Bollinger raise, then the final clamp
`targetPrice = Math.max(targetPrice, currentPrice * 1.02)` applied
when not in profit or when the profit percentage is below 50
(lines 563-565). -/
def smartTarget (currentPrice buyPrice : ℚ) (technical : Technical) (signals : Signals) : ℚ :=
  if ¬ (0 < pnlOf currentPrice buyPrice) ∨ pnlOf currentPrice buyPrice < 50 then
    max
      (targetAdjustBoll technical.bollingerBands
        (targetAdjustMa50 currentPrice technical.ma50
          (targetLadder currentPrice buyPrice technical.rsi signals)))
      (currentPrice * 1.02)
  else
    targetAdjustBoll technical.bollingerBands
      (targetAdjustMa50 currentPrice technical.ma50
        (targetLadder currentPrice buyPrice technical.rsi signals))

/-- The three price levels of `calculateSmartPrices` before the final
2-decimal formatting, as `(stopLoss, addMorePrice, targetPrice)`. -/
def calculateSmartPricesRaw (currentPrice buyPrice : ℚ)
    (technical : Technical) (signals : Signals) : ℚ × ℚ × ℚ :=
  (smartStopLoss currentPrice buyPrice technical,
   smartAddMore currentPrice buyPrice technical,
   smartTarget currentPrice buyPrice technical signals)

/-- Embedding of `calculateSmartPrices` (`src/routes/analysis.js`, lines 439-577): the
returned record's numeric fields, each being `parseFloat(x.toFixed(2))`
of the corresponding raw level (lines 569-576). -/
def calculateSmartPrices (currentPrice buyPrice : ℚ)
    (technical : Technical) (signals : Signals) : ℚ × ℚ × ℚ :=
  let raw := calculateSmartPricesRaw currentPrice buyPrice technical signals
  (toFixed2 raw.1, toFixed2 raw.2.1, toFixed2 raw.2.2)

/-- The final clamp of `calculateBaseConfidence`
(line 633: `Math.max(15, Math.min(95, confidence))`). -/
def clampConfidence (c : ℤ) : ℤ := max 15 (min 95 c)

/-- Embedding of `calculateBaseConfidence(signals, technical, pnlPercent)`
(`src/routes/analysis.js`, lines 580-638).  The confidence starts at 50
and every adjustment adds or subtracts an integer constant, so it is
modelled on `ℤ`; `Math.floor(Math.random() * 7) - 3` (an integer in
`[-3, 3]`) is the explicit `jitter` parameter. -/
def calculateBaseConfidence (signals : Signals) (technical : Technical)
    (pnlPercent : ℚ) (jitter : ℤ) : ℤ :=
  let c0 : ℤ := 50
  let totalScore := signals.bullishScore + signals.bearishScore
  let c1 :=
    if 0 < totalScore then
      let bullishPercent := signals.bullishScore / totalScore * 100
      if 70 < bullishPercent then c0 + 25
      else if 55 < bullishPercent then c0 + 15
      else if bullishPercent < 30 then c0 - 25
      else if bullishPercent < 45 then c0 - 15
      else c0
    else c0
  let c2 :=
    match technical.rsi with
    | none => c1
    | some r =>
      if r = 0 then c1
      else
        if 70 < r then c1 - 8
        else if r < 30 then c1 + 8
        else if 45 ≤ r ∧ r ≤ 55 then c1 + 5
        else c1
  let c3 :=
    if 20 < pnlPercent then c2 + 10
    else if 10 < pnlPercent then c2 + 5
    else if pnlPercent < -20 then c2 - 15
    else if pnlPercent < -10 then c2 - 8
    else c2
  let c4 :=
    if jsIncludes signals.macdText "金叉" then c3 + 6
    else if jsIncludes signals.macdText "死叉" then c3 - 6
    else c3
  let c5 :=
    if jsIncludes signals.maText "黃金交叉" then c4 + 5
    else if jsIncludes signals.maText "死亡交叉" then c4 - 5
    else c4
  clampConfidence (c5 + jitter)

/-- A holding submitted to `POST /holdings`: only the fields the batch loop
and its degraded branch read. -/
structure Holding where
  symbol : String
  buy_price : Option ℚ
  current_price : Option ℚ
  deriving DecidableEq

/-- A per-holding advice record (`AdviceRecord`); the nested
`technicalSignals` scoring block does not affect the batch-isolation
property and is omitted. -/
structure Advice where
  symbol : String
  action : String
  confidence : ℚ
  targetPrice : ℚ
  stopLoss : ℚ
  addMorePrice : ℚ
  reasoning : String
  deriving DecidableEq

/-- The degraded record pushed by the per-holding `catch`
(`src/routes/analysis.js`, lines 255-270):
`HOLD` with confidence `0` and price levels from
`holding.current_price || 0`. -/
def degradedAdvice (h : Holding) : Advice :=
  { symbol := h.symbol
    action := "HOLD"
    confidence := 0
    targetPrice := h.current_price.getD 0
    stopLoss := h.current_price.getD 0 * 0.95
    addMorePrice := h.current_price.getD 0 * 0.95
    reasoning := "無法獲取 " ++ h.symbol ++ " 數據，建議手動檢查" }

/-- The `for (const holding of holdings)` loop of `POST /holdings`
(lines 234-272): each holding's data fetch plus advice generation is the
awaited computation `attempt`; its rejection is caught per holding and
replaced by the degraded record, never aborting the loop. -/
def analyzeHoldings (attempt : Holding → Except String Advice)
    (holdings : List Holding) : List Advice :=
  holdings.map (fun h =>
    match attempt h with
    | .ok a => a
    | .error _ => degradedAdvice h)

/-- The `POST /holdings` route body (lines 219-292): reject an empty
holdings list with a 400-style error, otherwise run the batch loop and
respond with the advice list (the portfolio summary derived from it does
not alter the list and is omitted). -/
def holdingsRoute (attempt : Holding → Except String Advice)
    (holdings : List Holding) : Except String (List Advice) :=
  if holdings.isEmpty then .error "請提供持倉數據"
  else .ok (analyzeHoldings attempt holdings)

end Analysis

namespace Stocks

/-! Embedding of the chart-assembly part of `GET /candles/:symbol`
(`src/routes/stocks.js`, lines 181-215). -/

/-- The candle arrays returned by `stockService.getCandles`: per-field
arrays of equal length per the provider's normalization. -/
structure Candles where
  timestamps : List ℤ
  opens : List ℚ
  highs : List ℚ
  lows : List ℚ
  closes : List ℚ
  volumes : List ℚ
  deriving DecidableEq

/-- One merged per-day row of the candles chart (the `date` locale string is
formatting of `timestamp` and is omitted).  `Option` fields model the
explicit `null` (or out-of-range `undefined`) values of the source. -/
structure ChartRow where
  timestamp : ℤ
  openP : Option ℚ
  highP : Option ℚ
  lowP : Option ℚ
  closeP : Option ℚ
  volumeP : Option ℚ
  ma50 : Option ℚ
  ma200 : Option ℚ
  macd : Option ℚ
  signal : Option ℚ
  histogram : Option ℚ
  deriving DecidableEq

/-- One aligned indicator lookup of the chart assembly: the JS expression
`hIndex >= 0 ? history[hIndex] : null` for `hIndex = index - startIndex`
(an out-of-range array access yields JS `undefined`, modelled as `none`
like `null`). -/
def alignedCell {α : Type} (history : List α) (startIndex : ℤ) (index : ℕ) : Option α :=
  if 0 ≤ (index : ℤ) - startIndex then history.get? ((index : ℤ) - startIndex).toNat
  else none

/-- One row of the `candles.timestamps.map((timestamp, index) => ...)` chart
assembly (`src/routes/stocks.js`, lines 196-215). -/
def chartRowAt (candles : Candles)
    (ma50History ma200History : List ℚ)
    (macdHistory : List TechnicalIndicators.MacdPoint) (index : ℕ) : ChartRow :=
  let ma50StartIndex : ℤ := (candles.closes.length : ℤ) - ma50History.length
  let ma200StartIndex : ℤ := (candles.closes.length : ℤ) - ma200History.length
  let macdStartIndex : ℤ := (candles.closes.length : ℤ) - macdHistory.length
  { timestamp := (candles.timestamps.get? index).getD 0
    openP := (candles.opens.get? index).map toFixed2
    highP := (candles.highs.get? index).map toFixed2
    lowP := (candles.lows.get? index).map toFixed2
    closeP := (candles.closes.get? index).map toFixed2
    volumeP := candles.volumes.get? index
    ma50 := alignedCell ma50History ma50StartIndex index
    ma200 := alignedCell ma200History ma200StartIndex index
    macd := (alignedCell macdHistory macdStartIndex index).map TechnicalIndicators.MacdPoint.macd
    signal :=
      (alignedCell macdHistory macdStartIndex index).map TechnicalIndicators.MacdPoint.signal
    histogram :=
      (alignedCell macdHistory macdStartIndex index).map TechnicalIndicators.MacdPoint.histogram }

/-- The chart assembly of `GET /candles/:symbol` (lines 191-215): each
indicator history is right-aligned via
`startIndex = closes.length - history.length`, and a row carries an
indicator value exactly when its shifted index is non-negative. -/
def assembleChartRows (candles : Candles)
    (ma50History ma200History : List ℚ)
    (macdHistory : List TechnicalIndicators.MacdPoint) : List ChartRow :=
  (List.range candles.timestamps.length).map
    (chartRowAt candles ma50History ma200History macdHistory)

end Stocks

/-! ## General lemmas about the embedding helpers -/

theorem toFixed2_sub_abs (x : ℚ) : |toFixed2 x - x| ≤ 1 / 200 := by
  have h : |(round (x * 100) : ℚ) - x * 100| ≤ 1 / 2 := by
    rw [abs_sub_comm]; exact abs_sub_round (x * 100)
  have e : toFixed2 x - x = ((round (x * 100) : ℚ) - x * 100) / 100 := by
    rw [toFixed2]; ring
  rw [e, abs_div, abs_of_pos (by norm_num : (0 : ℚ) < 100)]
  linarith

theorem toFixed2_le_add (x : ℚ) : toFixed2 x ≤ x + 1 / 200 := by
  have h := toFixed2_sub_abs x
  have := abs_le.mp h
  linarith [this.2]

theorem sub_le_toFixed2 (x : ℚ) : x - 1 / 200 ≤ toFixed2 x := by
  have h := toFixed2_sub_abs x
  have := abs_le.mp h
  linarith [this.1]

theorem firstTruthyS_cons (x : Option String) (xs : List (Option String)) (d : String) :
    firstTruthyS (x :: xs) d =
      if truthyS x then x.getD "" else firstTruthyS xs d := by
  cases x with
  | none => simp [firstTruthyS, truthyS]
  | some s =>
    by_cases h : s = "" <;> simp [firstTruthyS, truthyS, h]

theorem firstTruthyS_nil (d : String) : firstTruthyS [] d = d := rfl

theorem firstTruthyQ_cons (x : Option ℚ) (xs : List (Option ℚ)) (d : ℚ) :
    firstTruthyQ (x :: xs) d =
      if truthyQ x then x.getD 0 else firstTruthyQ xs d := by
  cases x with
  | none => simp [firstTruthyQ, truthyQ]
  | some v =>
    by_cases h : v = 0 <;> simp [firstTruthyQ, truthyQ, h]

theorem firstTruthyQ_nil (d : ℚ) : firstTruthyQ [] d = d := rfl

/-! ## Lemmas about the smart-price pipeline -/

theorem smartStopLoss_le (cp buy : ℚ) (t : Analysis.Technical) :
    Analysis.smartStopLoss cp buy t ≤ 0.95 * cp := by
  unfold Analysis.smartStopLoss
  refine le_trans (min_le_right _ _) ?_
  linarith

theorem smartAddMore_le (cp buy : ℚ) (t : Analysis.Technical) :
    Analysis.smartAddMore cp buy t ≤ 0.98 * cp := by
  unfold Analysis.smartAddMore
  refine le_trans (min_le_right _ _) ?_
  linarith

theorem le_targetAdjustMa50 (cp : ℚ) (o : Option ℚ) (x : ℚ) :
    x ≤ Analysis.targetAdjustMa50 cp o x := by
  unfold Analysis.targetAdjustMa50
  cases o with
  | none => exact le_refl x
  | some m =>
    dsimp only
    split
    · exact le_max_left _ _
    · exact le_refl x

theorem le_targetAdjustBoll (b : Option TechnicalIndicators.BollBands) (x : ℚ) :
    x ≤ Analysis.targetAdjustBoll b x := by
  unfold Analysis.targetAdjustBoll
  cases b with
  | none => exact le_refl x
  | some bb =>
    dsimp only
    split
    · exact le_max_left _ _
    · exact le_refl x

theorem targetLadder_profit_ge (cp buy : ℚ) (rsi : Option ℚ) (s : Analysis.Signals)
    (hcp : 0 ≤ cp) (h : 0 < Analysis.pnlOf cp buy) :
    cp * 1.08 ≤ Analysis.targetLadder cp buy rsi s := by
  unfold Analysis.targetLadder
  rw [if_pos h]
  split
  · linarith
  · linarith

theorem smartTarget_ge (cp buy : ℚ) (t : Analysis.Technical) (s : Analysis.Signals)
    (hcp : 0 < cp) (h50 : Analysis.pnlOf cp buy ≤ 50) :
    1.02 * cp ≤ Analysis.smartTarget cp buy t s := by
  unfold Analysis.smartTarget
  by_cases hc : ¬ (0 < Analysis.pnlOf cp buy) ∨ Analysis.pnlOf cp buy < 50
  · rw [if_pos hc]
    refine le_trans (by linarith) (le_max_right _ _)
  · rw [if_neg hc]
    push_neg at hc
    have h0 := targetLadder_profit_ge cp buy t.rsi s (le_of_lt hcp) hc.1
    have h1 := le_targetAdjustMa50 cp t.ma50 (Analysis.targetLadder cp buy t.rsi s)
    have h2 := le_targetAdjustBoll t.bollingerBands
      (Analysis.targetAdjustMa50 cp t.ma50 (Analysis.targetLadder cp buy t.rsi s))
    linarith

/-! ## Claim C1 -/

/-- C1 (amended): for every `currentPrice > 0`, `buyPrice > 0` and every
indicator reading, the price levels computed by `calculateSmartPrices`
satisfy `stopLoss ≤ 0.95·currentPrice`, `addMorePrice ≤ 0.98·currentPrice`
and, whenever the profit percentage is ≤ 50,
`targetPrice ≥ 1.02·currentPrice` — exactly for the values before the final
2-decimal formatting, and within half a cent (1/200) for the returned
`parseFloat(x.toFixed(2))` values. -/
theorem C1_price_level_clamps (cp buy : ℚ) (t : Analysis.Technical) (s : Analysis.Signals)
    (hcp : 0 < cp) (hbuy : 0 < buy) :
    (Analysis.calculateSmartPricesRaw cp buy t s).1 ≤ 0.95 * cp ∧
    (Analysis.calculateSmartPricesRaw cp buy t s).2.1 ≤ 0.98 * cp ∧
    ((cp - buy) / buy * 100 ≤ 50 →
      1.02 * cp ≤ (Analysis.calculateSmartPricesRaw cp buy t s).2.2) ∧
    (Analysis.calculateSmartPrices cp buy t s).1 ≤ 0.95 * cp + 1 / 200 ∧
    (Analysis.calculateSmartPrices cp buy t s).2.1 ≤ 0.98 * cp + 1 / 200 ∧
    ((cp - buy) / buy * 100 ≤ 50 →
      1.02 * cp - 1 / 200 ≤ (Analysis.calculateSmartPrices cp buy t s).2.2) := by
  have hsl : Analysis.smartStopLoss cp buy t ≤ 0.95 * cp := smartStopLoss_le cp buy t
  have ham : Analysis.smartAddMore cp buy t ≤ 0.98 * cp := smartAddMore_le cp buy t
  refine ⟨hsl, ham, ?_, ?_, ?_, ?_⟩
  · intro h50
    exact smartTarget_ge cp buy t s hcp h50
  · have := toFixed2_le_add (Analysis.smartStopLoss cp buy t)
    show toFixed2 (Analysis.smartStopLoss cp buy t) ≤ 0.95 * cp + 1 / 200
    linarith
  · have := toFixed2_le_add (Analysis.smartAddMore cp buy t)
    show toFixed2 (Analysis.smartAddMore cp buy t) ≤ 0.98 * cp + 1 / 200
    linarith
  · intro h50
    have h1 := smartTarget_ge cp buy t s hcp h50
    have h2 := sub_le_toFixed2 (Analysis.smartTarget cp buy t s)
    show 1.02 * cp - 1 / 200 ≤ toFixed2 (Analysis.smartTarget cp buy t s)
    linarith

/-! ## Claim C9 -/

theorem clampConfidence_bounds (c : ℤ) :
    15 ≤ Analysis.clampConfidence c ∧ Analysis.clampConfidence c ≤ 95 := by
  unfold Analysis.clampConfidence
  exact ⟨le_max_left _ _, max_le (by norm_num) (min_le_left _ _)⟩

/-- C9: for every signals tally, RSI reading, profit/loss percentage and
every integer jitter value (the code's `Math.floor(Math.random()*7) - 3`
always lies in `[-3, 3]`, but no bound is even needed), the confidence
returned by `calculateBaseConfidence` is an integer (the function is
`ℤ`-valued because every adjustment is an integer constant) clamped to
`[15, 95]`, hence in particular an integer in `[0, 100]`. -/
theorem C9_confidence_range (s : Analysis.Signals) (t : Analysis.Technical)
    (pnl : ℚ) (jitter : ℤ) :
    15 ≤ Analysis.calculateBaseConfidence s t pnl jitter ∧
    Analysis.calculateBaseConfidence s t pnl jitter ≤ 95 ∧
    0 ≤ Analysis.calculateBaseConfidence s t pnl jitter ∧
    Analysis.calculateBaseConfidence s t pnl jitter ≤ 100 := by
  have h : ∃ c, Analysis.calculateBaseConfidence s t pnl jitter =
      Analysis.clampConfidence c := ⟨_, rfl⟩
  obtain ⟨c, hc⟩ := h
  have hb := clampConfidence_bounds c
  rw [hc]
  exact ⟨hb.1, hb.2, by linarith [hb.1], by linarith [hb.2]⟩

/-! ## Claim C5 -/

/-- C5 (amended): the fused `getQuote` returns the primary provider's quote
when the primary succeeds; on primary failure it returns the secondary's
quote when the secondary succeeds; and when both fail it raises the
primary provider's error verbatim (so the error carries the primary's
failure message, and mentions the symbol only if that upstream message
already did), with the secondary's error discarded. -/
theorem C5_getQuote_fallback :
    (∀ (q : StockService.Quote) (secondary : Except String StockService.Quote),
      StockService.getQuote (.ok q) secondary = .ok q) ∧
    (∀ (e : String) (q : StockService.Quote),
      StockService.getQuote (.error e) (.ok q) = .ok q) ∧
    (∀ (e1 e2 : String),
      StockService.getQuote (.error e1) (.error e2) = .error e1) :=
  ⟨fun _ _ => rfl, fun _ _ => rfl, fun _ _ => rfl⟩

/-! ## Claim C2 -/

/-- C2 (amended): the `getProfile` merge is per-field with the primary
dominating whenever its value is JS-truthy (non-null, non-empty,
non-zero — so the sentinel string `"N/A"` counts as a present value),
else the secondary's truthy value, else a hardcoded default (the symbol
itself for `name`, `"N/A"`/`"USD"`/`""` for the other strings, `0` for the
market cap). -/
theorem C2_profile_merge (symbol : String) (yp : StockService.RawProfile)
    (fp : Option StockService.RawProfile) :
    (StockService.mergeProfiles symbol yp fp).name =
      (if truthyS yp.name then yp.name.getD ""
       else if truthyS (fp.bind StockService.RawProfile.name) then
         (fp.bind StockService.RawProfile.name).getD ""
       else symbol) ∧
    (StockService.mergeProfiles symbol yp fp).country =
      (if truthyS yp.country then yp.country.getD ""
       else if truthyS (fp.bind StockService.RawProfile.country) then
         (fp.bind StockService.RawProfile.country).getD ""
       else "N/A") ∧
    (StockService.mergeProfiles symbol yp fp).currency =
      (if truthyS yp.currency then yp.currency.getD ""
       else if truthyS (fp.bind StockService.RawProfile.currency) then
         (fp.bind StockService.RawProfile.currency).getD ""
       else "USD") ∧
    (StockService.mergeProfiles symbol yp fp).exchange =
      (if truthyS yp.exchange then yp.exchange.getD ""
       else if truthyS (fp.bind StockService.RawProfile.exchange) then
         (fp.bind StockService.RawProfile.exchange).getD ""
       else "N/A") ∧
    (StockService.mergeProfiles symbol yp fp).finnhubIndustry =
      (if truthyS yp.finnhubIndustry then yp.finnhubIndustry.getD ""
       else if truthyS yp.industry then yp.industry.getD ""
       else if truthyS (fp.bind StockService.RawProfile.finnhubIndustry) then
         (fp.bind StockService.RawProfile.finnhubIndustry).getD ""
       else "N/A") ∧
    (StockService.mergeProfiles symbol yp fp).marketCapitalization =
      (if truthyQ yp.marketCapitalization then yp.marketCapitalization.getD 0
       else if truthyQ (fp.bind StockService.RawProfile.marketCapitalization) then
         (fp.bind StockService.RawProfile.marketCapitalization).getD 0
       else 0) ∧
    (StockService.mergeProfiles symbol yp fp).weburl =
      (if truthyS yp.weburl then yp.weburl.getD ""
       else if truthyS (fp.bind StockService.RawProfile.weburl) then
         (fp.bind StockService.RawProfile.weburl).getD ""
       else "") := by
  refine ⟨?_, ?_, ?_, ?_, ?_, ?_, ?_⟩ <;>
    simp [StockService.mergeProfiles, firstTruthyS_cons, firstTruthyS_nil,
      firstTruthyQ_cons, firstTruthyQ_nil]

/-! ## Claim C6 -/

/-- C6: for every non-empty holdings list and every per-holding attempt
outcome, the batch route returns exactly one advice record per holding;
a holding whose attempt fails yields the degraded record for that symbol
(action `HOLD`, confidence `0`) while each succeeding holding's record is
returned unchanged — one failure never aborts the batch. -/
theorem C6_holdings_batch_isolation
    (attempt : Analysis.Holding → Except String Analysis.Advice)
    (holdings : List Analysis.Holding) (hne : holdings ≠ []) :
    ∃ advice, Analysis.holdingsRoute attempt holdings = .ok advice ∧
      advice.length = holdings.length ∧
      ∀ i h, holdings.get? i = some h →
        (∀ e, attempt h = .error e →
          advice.get? i = some (Analysis.degradedAdvice h) ∧
          (Analysis.degradedAdvice h).action = "HOLD" ∧
          (Analysis.degradedAdvice h).confidence = 0 ∧
          (Analysis.degradedAdvice h).symbol = h.symbol) ∧
        (∀ a, attempt h = .ok a → advice.get? i = some a) := by
  have hempty : holdings.isEmpty = false := by
    simpa [List.isEmpty_iff] using hne
  refine ⟨Analysis.analyzeHoldings attempt holdings, ?_, ?_, ?_⟩
  · rw [Analysis.holdingsRoute, hempty]
    rfl
  · simp [Analysis.analyzeHoldings]
  · intro i h hget
    constructor
    · intro e he
      refine ⟨?_, rfl, rfl, rfl⟩
      simp only [Analysis.analyzeHoldings, List.get?_map, hget, Option.map_some', he]
    · intro a ha
      simp only [Analysis.analyzeHoldings, List.get?_map, hget, Option.map_some', ha]

/-! ## Claim C10 -/

/-- C10: for every close-price series of length ≥ `period`, the last element
of `calculateSMAHistory` is exactly the 2-decimal rounding of
`calculateSMA` over the same series — the history entries pass through
`parseFloat(x.toFixed(2))` while the point-form SMA is returned unrounded,
so the two forms of the same indicator can differ by up to half a cent. -/
theorem C10_sma_history_last (prices : List ℚ) (period : ℕ)
    (hlen : period ≤ prices.length) :
    ∃ s, TechnicalIndicators.calculateSMA prices period = some s ∧
      (TechnicalIndicators.calculateSMAHistory prices period).getLast? =
        some (toFixed2 s) ∧
      |toFixed2 s - s| ≤ 1 / 200 := by
  have hnl : ¬ prices.length < period := not_lt.mpr hlen
  refine ⟨TechnicalIndicators.smaOf prices period, ?_, ?_, toFixed2_sub_abs _⟩
  · rw [TechnicalIndicators.calculateSMA, if_neg hnl]
  · rw [TechnicalIndicators.calculateSMAHistory, if_neg hnl]
    have hn : prices.length + 1 - period = (prices.length - period) + 1 := by omega
    rw [hn, List.range_succ, List.map_append, List.map_singleton, List.getLast?_concat]
    have hl : (prices.drop (prices.length - period)).length = period := by
      rw [List.length_drop]; omega
    have ht : (prices.drop (prices.length - period)).take period =
        prices.drop (prices.length - period) :=
      List.take_of_length_le (le_of_eq hl)
    rw [ht]
    rfl

/-! ## Claim C8 -/

/-- C8 (amended): for every close-price series of length ≥ `period` (and any
square-root function and band multiplier), the Bollinger bands are exactly
symmetric before the final 2-decimal formatting
(`upper - middle = middle - lower`), and the returned rounded values are
symmetric within the accumulated rounding slack of 1/50 (0.02). -/
theorem C8_bollinger_symmetry (sqrtFn : ℚ → ℚ) (prices : List ℚ) (period : ℕ) (k : ℚ)
    (hlen : period ≤ prices.length) :
    ((TechnicalIndicators.bollingerRaw sqrtFn prices period k).upper -
        (TechnicalIndicators.bollingerRaw sqrtFn prices period k).middle =
      (TechnicalIndicators.bollingerRaw sqrtFn prices period k).middle -
        (TechnicalIndicators.bollingerRaw sqrtFn prices period k).lower) ∧
    ∃ b, TechnicalIndicators.calculateBollingerBands sqrtFn prices period k = some b ∧
      |(b.upper - b.middle) - (b.middle - b.lower)| ≤ 1 / 50 := by
  have hnl : ¬ prices.length < period := not_lt.mpr hlen
  have hsym : (TechnicalIndicators.bollingerRaw sqrtFn prices period k).upper -
      (TechnicalIndicators.bollingerRaw sqrtFn prices period k).middle =
    (TechnicalIndicators.bollingerRaw sqrtFn prices period k).middle -
      (TechnicalIndicators.bollingerRaw sqrtFn prices period k).lower := by
    unfold TechnicalIndicators.bollingerRaw
    dsimp only
    ring
  refine ⟨hsym,
    ⟨⟨toFixed2 (TechnicalIndicators.bollingerRaw sqrtFn prices period k).upper,
      toFixed2 (TechnicalIndicators.bollingerRaw sqrtFn prices period k).middle,
      toFixed2 (TechnicalIndicators.bollingerRaw sqrtFn prices period k).lower⟩, ?_, ?_⟩⟩
  · rw [TechnicalIndicators.calculateBollingerBands, if_neg hnl]
  · set U := (TechnicalIndicators.bollingerRaw sqrtFn prices period k).upper with hU
    set M := (TechnicalIndicators.bollingerRaw sqrtFn prices period k).middle with hM
    set L := (TechnicalIndicators.bollingerRaw sqrtFn prices period k).lower with hL
    have h1 := abs_le.mp (toFixed2_sub_abs U)
    have h2 := abs_le.mp (toFixed2_sub_abs M)
    have h3 := abs_le.mp (toFixed2_sub_abs L)
    have hz : U - 2 * M + L = 0 := by linarith [hsym]
    rw [abs_le]
    constructor <;> dsimp only <;> linarith

/-! ## Claim C4 -/

theorem alignedCell_ne_none {α : Type} (H : List α) (n i : ℕ)
    (hH : H.length ≤ n) (hi : i < n) :
    (Stocks.alignedCell H ((n : ℤ) - H.length) i ≠ none ↔ n - H.length ≤ i) := by
  unfold Stocks.alignedCell
  by_cases hc : (0 : ℤ) ≤ (i : ℤ) - ((n : ℤ) - (H.length : ℤ))
  · rw [if_pos hc, Ne, List.get?_eq_none]
    omega
  · rw [if_neg hc]
    simp only [ne_eq, not_true_eq_false, false_iff]
    omega

/-- C4: in the candles chart assembly, for every indicator history aligned
with `startIndex = closes.length - len(history)` (given the series'
per-field arrays have equal length), the per-day row at series index `i`
carries a non-null value for that indicator if and only if
`i ≥ startIndex`; rows for earlier days carry `null` for that field. -/
theorem C4_chart_alignment (candles : Stocks.Candles)
    (ma50H ma200H : List ℚ) (macdH : List TechnicalIndicators.MacdPoint)
    (hts : candles.timestamps.length = candles.closes.length)
    (h50 : ma50H.length ≤ candles.closes.length)
    (h200 : ma200H.length ≤ candles.closes.length)
    (hm : macdH.length ≤ candles.closes.length) :
    ∀ i, i < candles.timestamps.length →
      ∃ row, (Stocks.assembleChartRows candles ma50H ma200H macdH).get? i = some row ∧
        (row.ma50 ≠ none ↔ candles.closes.length - ma50H.length ≤ i) ∧
        (row.ma200 ≠ none ↔ candles.closes.length - ma200H.length ≤ i) ∧
        ((row.macd ≠ none ∧ row.signal ≠ none ∧ row.histogram ≠ none) ↔
          candles.closes.length - macdH.length ≤ i) := by
  intro i hi
  have hic : i < candles.closes.length := hts ▸ hi
  refine ⟨Stocks.chartRowAt candles ma50H ma200H macdH i, ?_, ?_, ?_, ?_⟩
  · rw [Stocks.assembleChartRows, List.get?_map, List.get?_range hi, Option.map_some']
  · exact alignedCell_ne_none ma50H candles.closes.length i h50 hic
  · exact alignedCell_ne_none ma200H candles.closes.length i h200 hic
  · have hcell := alignedCell_ne_none macdH candles.closes.length i hm hic
    constructor
    · intro h
      exact hcell.mp (fun hnone => h.1 (by
        show (Stocks.alignedCell macdH _ i).map TechnicalIndicators.MacdPoint.macd = none
        rw [hnone]; rfl))
    · intro h
      have hne := hcell.mpr h
      obtain ⟨p, hp⟩ := Option.ne_none_iff_exists'.mp hne
      refine ⟨?_, ?_, ?_⟩ <;>
        · show (Stocks.alignedCell macdH _ i).map _ ≠ none
          rw [hp]
          simp

/-! ## Claim C3 -/

theorem changesOf_nil : TechnicalIndicators.changesOf [] = [] := rfl

theorem changesOf_singleton (a : ℚ) : TechnicalIndicators.changesOf [a] = [] := rfl

theorem changesOf_cons_cons (a b : ℚ) (t : List ℚ) :
    TechnicalIndicators.changesOf (a :: b :: t) =
      (b - a) :: TechnicalIndicators.changesOf (b :: t) := rfl

theorem changes_nonneg : ∀ {l : List ℚ}, List.Chain' (· ≤ ·) l →
    ∀ c ∈ TechnicalIndicators.changesOf l, 0 ≤ c := by
  intro l
  induction l with
  | nil => intro _ c hc; simp [changesOf_nil] at hc
  | cons a t ih =>
    cases t with
    | nil => intro _ c hc; simp [changesOf_singleton] at hc
    | cons b t' =>
      intro h c hc
      rw [List.chain'_cons] at h
      rw [changesOf_cons_cons] at hc
      rcases List.mem_cons.mp hc with hc | hc
      · rw [hc]; linarith [h.1]
      · exact ih h.2 c hc

theorem changes_nonpos : ∀ {l : List ℚ}, List.Chain' (fun a b => b ≤ a) l →
    ∀ c ∈ TechnicalIndicators.changesOf l, c ≤ 0 := by
  intro l
  induction l with
  | nil => intro _ c hc; simp [changesOf_nil] at hc
  | cons a t ih =>
    cases t with
    | nil => intro _ c hc; simp [changesOf_singleton] at hc
    | cons b t' =>
      intro h c hc
      rw [List.chain'_cons] at h
      rw [changesOf_cons_cons] at hc
      rcases List.mem_cons.mp hc with hc | hc
      · rw [hc]; linarith [h.1]
      · exact ih h.2 c hc

theorem rsi_fold_loss_zero (period : ℕ) :
    ∀ (L : List ℚ), (∀ c ∈ L, 0 ≤ c) → ∀ a : ℚ × ℚ, a.2 = 0 →
      (L.foldl (TechnicalIndicators.rsiStep period) a).2 = 0 := by
  intro L
  induction L with
  | nil => intro _ a ha; simpa using ha
  | cons c rest ih =>
    intro hall a ha
    rw [List.foldl_cons]
    apply ih (fun x hx => hall x (List.mem_cons_of_mem _ hx))
    unfold TechnicalIndicators.rsiStep
    by_cases hc : 0 < c
    · rw [if_pos hc]; dsimp only; rw [ha]; ring
    · rw [if_neg hc]; dsimp only; rw [ha]
      have hc0 : c = 0 := le_antisymm (not_lt.mp hc) (hall c (List.mem_cons_self _ _))
      rw [hc0]; ring

theorem rsi_fold_gain_zero (period : ℕ) :
    ∀ (L : List ℚ), (∀ c ∈ L, c ≤ 0) → ∀ a : ℚ × ℚ, a.1 = 0 →
      (L.foldl (TechnicalIndicators.rsiStep period) a).1 = 0 := by
  intro L
  induction L with
  | nil => intro _ a ha; simpa using ha
  | cons c rest ih =>
    intro hall a ha
    rw [List.foldl_cons]
    apply ih (fun x hx => hall x (List.mem_cons_of_mem _ hx))
    unfold TechnicalIndicators.rsiStep
    rw [if_neg (not_lt.mpr (hall c (List.mem_cons_self _ _)))]
    dsimp only
    rw [ha]; ring

theorem rsiStep_loss_nonneg (period : ℕ) (hp : 2 ≤ period) (a : ℚ × ℚ) (c : ℚ)
    (ha : 0 ≤ a.2) (hc : c ≤ 0) : 0 ≤ (TechnicalIndicators.rsiStep period a c).2 := by
  have hpq : (0 : ℚ) < period := by
    have : (2 : ℚ) ≤ period := by exact_mod_cast hp
    linarith
  have hp1 : (1 : ℚ) ≤ (period : ℚ) - 1 := by
    have : (2 : ℚ) ≤ period := by exact_mod_cast hp
    linarith
  unfold TechnicalIndicators.rsiStep
  rw [if_neg (not_lt.mpr hc)]
  dsimp only
  apply div_nonneg _ (le_of_lt hpq)
  nlinarith

theorem rsiStep_loss_pos (period : ℕ) (hp : 2 ≤ period) (a : ℚ × ℚ) (c : ℚ)
    (ha : 0 < a.2) (hc : c ≤ 0) : 0 < (TechnicalIndicators.rsiStep period a c).2 := by
  have hpq : (0 : ℚ) < period := by
    have : (2 : ℚ) ≤ period := by exact_mod_cast hp
    linarith
  have hp1 : (1 : ℚ) ≤ (period : ℚ) - 1 := by
    have : (2 : ℚ) ≤ period := by exact_mod_cast hp
    linarith
  unfold TechnicalIndicators.rsiStep
  rw [if_neg (not_lt.mpr hc)]
  dsimp only
  apply div_pos _ hpq
  nlinarith

theorem rsi_fold_loss_pos (period : ℕ) (hp : 2 ≤ period) :
    ∀ (L : List ℚ), (∀ c ∈ L, c ≤ 0) → ∀ a : ℚ × ℚ, 0 < a.2 →
      0 < (L.foldl (TechnicalIndicators.rsiStep period) a).2 := by
  intro L
  induction L with
  | nil => intro _ a ha; simpa using ha
  | cons c rest ih =>
    intro hall a ha
    rw [List.foldl_cons]
    exact ih (fun x hx => hall x (List.mem_cons_of_mem _ hx)) _
      (rsiStep_loss_pos period hp a c ha (hall c (List.mem_cons_self _ _)))

theorem rsi_fold_loss_activate (period : ℕ) (hp : 2 ≤ period) :
    ∀ (L : List ℚ), (∀ c ∈ L, c ≤ 0) → ∀ a : ℚ × ℚ, 0 ≤ a.2 →
      (∃ c ∈ L, c < 0) →
      0 < (L.foldl (TechnicalIndicators.rsiStep period) a).2 := by
  intro L
  induction L with
  | nil => intro _ _ _ hex; simp at hex
  | cons c rest ih =>
    intro hall a ha hex
    rw [List.foldl_cons]
    by_cases hc : c < 0
    · apply rsi_fold_loss_pos period hp rest
        (fun x hx => hall x (List.mem_cons_of_mem _ hx))
      have hpq : (0 : ℚ) < period := by
        have : (2 : ℚ) ≤ period := by exact_mod_cast hp
        linarith
      have hp1 : (1 : ℚ) ≤ (period : ℚ) - 1 := by
        have : (2 : ℚ) ≤ period := by exact_mod_cast hp
        linarith
      unfold TechnicalIndicators.rsiStep
      rw [if_neg (not_lt.mpr (le_of_lt hc))]
      dsimp only
      apply div_pos _ hpq
      nlinarith
    · obtain ⟨x, hx, hxneg⟩ := hex
      rcases List.mem_cons.mp hx with hx | hx
      · exact absurd (hx ▸ hxneg) hc
      · exact ih (fun y hy => hall y (List.mem_cons_of_mem _ hy)) _
          (rsiStep_loss_nonneg period hp a c ha (hall c (List.mem_cons_self _ _)))
          ⟨x, hx, hxneg⟩

/-- C3 (amended): for every monotonically non-decreasing close-price series
of length > `period`, `calculateRSI` returns 100 (the average loss stays
0); and for every monotonically non-increasing series of length > `period`
that contains at least one strict decline, it returns 0.  (A constant
series is non-increasing but keeps the average loss at 0, so the source
returns 100 for it — hence the added strict-decline hypothesis; `period ≥ 2`
covers every period the code uses, in particular the default 14.) -/
theorem C3_rsi_monotone (prices : List ℚ) (period : ℕ)
    (hp : 2 ≤ period) (hlen : period + 1 ≤ prices.length) :
    (List.Chain' (· ≤ ·) prices →
      TechnicalIndicators.calculateRSI prices period = some 100) ∧
    (List.Chain' (fun a b => b ≤ a) prices →
      (∃ c ∈ TechnicalIndicators.changesOf prices, c < 0) →
      TechnicalIndicators.calculateRSI prices period = some 0) := by
  have hnl : ¬ prices.length < period + 1 := by omega
  constructor
  · intro hchain
    have hall := changes_nonneg hchain
    have hz : (TechnicalIndicators.rsiAvgs prices period).2 = 0 := by
      unfold TechnicalIndicators.rsiAvgs
      apply rsi_fold_loss_zero period _
        (fun x hx => hall x (List.mem_of_mem_drop hx))
      dsimp only
      have : ((((TechnicalIndicators.changesOf prices).take period).map
          (fun c => if 0 < c then 0 else -c)).sum : ℚ) = 0 := by
        apply List.sum_eq_zero
        intro x hx
        obtain ⟨c, hc, rfl⟩ := List.mem_map.mp hx
        have hc0 : 0 ≤ c := hall c (List.take_subset _ _ hc)
        by_cases h0 : 0 < c
        · rw [if_pos h0]
        · rw [if_neg h0]
          have : c = 0 := le_antisymm (not_lt.mp h0) hc0
          rw [this, neg_zero]
      rw [this, zero_div]
    rw [TechnicalIndicators.calculateRSI, if_neg hnl, if_pos hz]
  · intro hchain hex
    have hall := changes_nonpos hchain
    have hlossnn : (0 : ℚ) ≤ ((((TechnicalIndicators.changesOf prices).take period).map
        (fun c => if 0 < c then 0 else -c)).sum : ℚ) := by
      apply List.sum_nonneg
      intro x hx
      obtain ⟨c, hc, rfl⟩ := List.mem_map.mp hx
      by_cases h0 : 0 < c
      · rw [if_pos h0]
      · rw [if_neg h0]
        have : c ≤ 0 := hall c (List.take_subset _ _ hc)
        linarith
    have hgz : (TechnicalIndicators.rsiAvgs prices period).1 = 0 := by
      unfold TechnicalIndicators.rsiAvgs
      apply rsi_fold_gain_zero period _
        (fun x hx => hall x (List.mem_of_mem_drop hx))
      dsimp only
      have : ((((TechnicalIndicators.changesOf prices).take period).map
          (fun c => if 0 < c then c else 0)).sum : ℚ) = 0 := by
        apply List.sum_eq_zero
        intro x hx
        obtain ⟨c, hc, rfl⟩ := List.mem_map.mp hx
        have hc0 : c ≤ 0 := hall c (List.take_subset _ _ hc)
        by_cases h0 : 0 < c
        · linarith
        · rw [if_neg h0]
      rw [this, zero_div]
    have hpq : (0 : ℚ) < period := by
      have : (2 : ℚ) ≤ period := by exact_mod_cast hp
      linarith
    have hlz : 0 < (TechnicalIndicators.rsiAvgs prices period).2 := by
      obtain ⟨c₀, hc₀mem, hc₀⟩ := hex
      rw [← List.take_append_drop period (TechnicalIndicators.changesOf prices)] at hc₀mem
      unfold TechnicalIndicators.rsiAvgs
      rcases List.mem_append.mp hc₀mem with hmem | hmem
      · apply rsi_fold_loss_pos period hp _
          (fun x hx => hall x (List.mem_of_mem_drop hx))
        dsimp only
        apply div_pos _ hpq
        have hterm : -c₀ ≤ (((TechnicalIndicators.changesOf prices).take period).map
            (fun c => if 0 < c then 0 else -c)).sum := by
          apply List.single_le_sum
          · intro x hx
            obtain ⟨c, hc, rfl⟩ := List.mem_map.mp hx
            by_cases h0 : 0 < c
            · rw [if_pos h0]
            · rw [if_neg h0]
              have : c ≤ 0 := hall c (List.take_subset _ _ hc)
              linarith
          · apply List.mem_map.mpr
            exact ⟨c₀, hmem, by rw [if_neg (not_lt.mpr (le_of_lt hc₀))]⟩
        linarith
      · apply rsi_fold_loss_activate period hp _
          (fun x hx => hall x (List.mem_of_mem_drop hx))
        · dsimp only
          exact div_nonneg hlossnn (le_of_lt hpq)
        · exact ⟨c₀, hmem, hc₀⟩
    rw [TechnicalIndicators.calculateRSI, if_neg hnl, if_neg hlz.ne']
    rw [hgz, zero_div]
    norm_num

/-! ## Claim C7 -/

theorem macdPointSpec_append (L : List ℚ) (m : ℚ) (signal j : ℕ) (hj : j < L.length) :
    TechnicalIndicators.macdPointSpec (L ++ [m]) signal j =
      TechnicalIndicators.macdPointSpec L signal j := by
  unfold TechnicalIndicators.macdPointSpec
  have h1 : (L ++ [m]).get? j = L.get? j := List.get?_append hj
  have h2 : (L ++ [m]).take (j + 1) = L.take (j + 1) :=
    List.take_append_of_le_length (by omega)
  rw [h1, h2]

theorem macdPointSpec_last (L : List ℚ) (m : ℚ) (signal : ℕ) :
    TechnicalIndicators.macdPointSpec (L ++ [m]) signal L.length =
      (if signal ≤ (L ++ [m]).length then
        (⟨toFixed4 m,
          toFixed4 (TechnicalIndicators.calculateEMAFromArray (L ++ [m]) signal),
          toFixed4 (m - TechnicalIndicators.calculateEMAFromArray (L ++ [m]) signal)⟩ :
            TechnicalIndicators.MacdPoint)
       else ⟨toFixed4 m, 0, toFixed4 m⟩) := by
  unfold TechnicalIndicators.macdPointSpec
  have hget : (L ++ [m]).get? L.length = some m := List.get?_concat_length L m
  have hlen : (L ++ [m]).length = L.length + 1 := by simp
  have htake : (L ++ [m]).take (L.length + 1) = L ++ [m] :=
    List.take_of_length_le (le_of_eq hlen)
  rw [hget, htake]
  by_cases hs : signal ≤ (L ++ [m]).length
  · rw [if_neg (by omega : ¬ L.length + 1 < signal), if_pos hs]
    rfl
  · rw [if_pos (by omega : L.length + 1 < signal), if_neg hs]
    rfl

theorem macdFold_invariant (prices : List ℚ) (fast slow signal : ℕ) :
    ∀ (is : List ℕ) (L : List ℚ) (R : List TechnicalIndicators.MacdPoint),
      R.length = L.length →
      (∀ j, j < R.length →
        R.get? j = some (TechnicalIndicators.macdPointSpec L signal j)) →
      (is.foldl (TechnicalIndicators.macdStep prices fast slow signal) (L, R)).1 =
          L ++ is.filterMap (TechnicalIndicators.macdAt prices fast slow) ∧
      (is.foldl (TechnicalIndicators.macdStep prices fast slow signal) (L, R)).2.length =
          (L ++ is.filterMap (TechnicalIndicators.macdAt prices fast slow)).length ∧
      ∀ j, j < (is.foldl (TechnicalIndicators.macdStep prices fast slow signal) (L, R)).2.length →
        (is.foldl (TechnicalIndicators.macdStep prices fast slow signal) (L, R)).2.get? j =
          some (TechnicalIndicators.macdPointSpec
            (L ++ is.filterMap (TechnicalIndicators.macdAt prices fast slow)) signal j) := by
  intro is
  induction is with
  | nil =>
    intro L R hlen hinv
    refine ⟨by simp, by simp [hlen], ?_⟩
    intro j hj
    simpa using hinv j (by simpa using hj)
  | cons i rest ih =>
    intro L R hlen hinv
    rw [List.foldl_cons, List.filterMap_cons]
    cases hmi : TechnicalIndicators.macdAt prices fast slow i with
    | none =>
      have hstep : TechnicalIndicators.macdStep prices fast slow signal (L, R) i = (L, R) := by
        unfold TechnicalIndicators.macdStep
        rw [hmi]
      rw [hstep]
      exact ih L R hlen hinv
    | some m =>
      have hinv' : ∀ (pt : TechnicalIndicators.MacdPoint),
          pt = TechnicalIndicators.macdPointSpec (L ++ [m]) signal L.length →
          ∀ j, j < (R ++ [pt]).length →
            (R ++ [pt]).get? j =
              some (TechnicalIndicators.macdPointSpec (L ++ [m]) signal j) := by
        intro pt hpt j hj
        rw [List.length_append, List.length_singleton] at hj
        by_cases hjR : j < R.length
        · rw [List.get?_append hjR, hinv j hjR,
            macdPointSpec_append L m signal j (hlen ▸ hjR)]
        · have hjeq : j = R.length := by omega
          subst hjeq
          rw [List.get?_concat_length, hpt, hlen]
      by_cases hs : signal ≤ (L ++ [m]).length
      · have hstep : TechnicalIndicators.macdStep prices fast slow signal (L, R) i =
            (L ++ [m], R ++ [⟨toFixed4 m,
              toFixed4 (TechnicalIndicators.calculateEMAFromArray (L ++ [m]) signal),
              toFixed4 (m - TechnicalIndicators.calculateEMAFromArray (L ++ [m]) signal)⟩]) := by
          unfold TechnicalIndicators.macdStep
          rw [hmi]
          dsimp only
          rw [if_pos hs]
        rw [hstep]
        have h := ih (L ++ [m]) (R ++ [_]) (by simp [hlen])
          (hinv' _ (by rw [macdPointSpec_last L m signal, if_pos hs]))
        refine ⟨?_, ?_, ?_⟩
        · rw [h.1]; simp
        · rw [h.2.1]; simp
        · intro j hj
          have := h.2.2 j hj
          rw [this]
          congr 2
          simp
      · have hstep : TechnicalIndicators.macdStep prices fast slow signal (L, R) i =
            (L ++ [m], R ++ [⟨toFixed4 m, 0, toFixed4 m⟩]) := by
          unfold TechnicalIndicators.macdStep
          rw [hmi]
          dsimp only
          rw [if_neg hs]
        rw [hstep]
        have h := ih (L ++ [m]) (R ++ [_]) (by simp [hlen])
          (hinv' _ (by rw [macdPointSpec_last L m signal, if_neg hs]))
        refine ⟨?_, ?_, ?_⟩
        · rw [h.1]; simp
        · rw [h.2.1]; simp
        · intro j hj
          have := h.2.2 j hj
          rw [this]
          congr 2
          simp

/-- C7 (amended): for every close-price series of length ≥ `slow + signal`,
`calculateMACDHistory` emits one point per running-MACD-line entry; a point
whose running MACD-line sequence has fewer than `signal` entries is emitted
with `signalLine = 0` and `histogram = macdLine` (exactly, both being the
same 4-decimal rounding of the MACD value), and from the moment the
sequence reaches `signal` entries onward each point carries
`signalLine = EMA(macdLineSequence, signal)` and
`histogram = macdLine - signalLine` up to the 4-decimal output rounding
(`parseFloat(x.toFixed(4))` is applied to each emitted field). -/
theorem C7_macd_history_points (prices : List ℚ) (fast slow signal : ℕ)
    (hlen : slow + signal ≤ prices.length) :
    (TechnicalIndicators.calculateMACDHistory prices fast slow signal).length =
      (TechnicalIndicators.macdLineSeq prices fast slow).length ∧
    ∀ j, j < (TechnicalIndicators.macdLineSeq prices fast slow).length →
      (TechnicalIndicators.calculateMACDHistory prices fast slow signal).get? j =
        some (TechnicalIndicators.macdPointSpec
          (TechnicalIndicators.macdLineSeq prices fast slow) signal j) := by
  have h := macdFold_invariant prices fast slow signal
    ((List.range prices.length).drop (slow - 1)) [] [] rfl
    (by intro j hj; simp at hj)
  rw [TechnicalIndicators.calculateMACDHistory, if_neg (by omega)]
  rw [TechnicalIndicators.macdLineSeq]
  simp only [List.nil_append] at h
  exact ⟨h.2.1, fun j hj => h.2.2 j (h.2.1 ▸ hj)⟩

/-! ## Witnesses and counterexamples

Concrete evaluations of the embedded functions.  The arithmetic of `ℚ` in
Batteries is `@[irreducible]` by default; it is made semireducible locally so
that `decide` can evaluate the embedding inside this section. -/

section ConcreteEvaluations

attribute [local semireducible] Rat.mul Rat.inv Rat.add Rat.sub Rat.ofScientific

/-- Witness for C1: at `currentPrice = 100`, `buyPrice = 80` and a fully
degraded indicator snapshot, the hypotheses hold and the raw stop-loss
obeys its clamp. -/
theorem C1_witness :
    (0 : ℚ) < 100 ∧ (0 : ℚ) < 80 ∧
    (Analysis.calculateSmartPricesRaw 100 80 ⟨none, none, none, none⟩
      ⟨0, 0, "", "", ""⟩).1 ≤ 0.95 * 100 :=
  ⟨by norm_num, by norm_num,
    (C1_price_level_clamps 100 80 ⟨none, none, none, none⟩ ⟨0, 0, "", "", ""⟩
      (by norm_num) (by norm_num)).1⟩

/-- Counterexample for C1 as stated: for the penny stock
`currentPrice = buyPrice = 0.01` the *returned* stop-loss (the raw value
0.0088 formatted by `toFixed(2)` to 0.01) strictly exceeds
`0.95 × currentPrice = 0.0095`. -/
theorem C1_counterexample :
    (0 : ℚ) < 1 / 100 ∧
    0.95 * (1 / 100 : ℚ) <
      (Analysis.calculateSmartPrices (1 / 100) (1 / 100) ⟨none, none, none, none⟩
        ⟨0, 0, "", "", ""⟩).1 := by
  constructor
  · norm_num
  · decide

/-- Counterexample for C2 as stated: for primary
`{name: "N/A", industry: "Tech"}` and secondary `{name: "Acme"}` the merged
profile keeps the primary's truthy string `"N/A"` as the name (the claim
expects `"Acme"`), while the industry is `"Tech"`; and when the primary
fetch fails outright the fallback name is the symbol, not `"N/A"`. -/
theorem C2_counterexample :
    (StockService.getProfile "XYZ"
        (.ok ⟨some "N/A", none, none, none, none, some "Tech", none, none⟩)
        (.ok ⟨some "Acme", none, none, none, none, none, none, none⟩)).name = "N/A" ∧
    (StockService.getProfile "XYZ"
        (.ok ⟨some "N/A", none, none, none, none, some "Tech", none, none⟩)
        (.ok ⟨some "Acme", none, none, none, none, none, none, none⟩)).finnhubIndustry =
      "Tech" ∧
    ("N/A" : String) ≠ "Acme" ∧
    (StockService.getProfile "XYZ" (.error "down") (.error "down")).name = "XYZ" := by
  refine ⟨by decide, by decide, by decide, by decide⟩

/-- Witness for C3: a strictly increasing 16-day series yields RSI 100, and
a strictly decreasing one yields RSI 0, through the amended theorem. -/
theorem C3_witness :
    TechnicalIndicators.calculateRSI
        [0, 1, 2, 3, 4, 5, 6, 7, 8, 9, 10, 11, 12, 13, 14, 15] 14 = some 100 ∧
    TechnicalIndicators.calculateRSI
        [20, 19, 18, 17, 16, 15, 14, 13, 12, 11, 10, 9, 8, 7, 6, 5] 14 = some 0 := by
  constructor
  · exact (C3_rsi_monotone [0, 1, 2, 3, 4, 5, 6, 7, 8, 9, 10, 11, 12, 13, 14, 15] 14
      (by norm_num) (by norm_num)).1 (by norm_num [List.chain'_cons])
  · exact (C3_rsi_monotone [20, 19, 18, 17, 16, 15, 14, 13, 12, 11, 10, 9, 8, 7, 6, 5] 14
      (by norm_num) (by norm_num)).2 (by norm_num [List.chain'_cons])
      ⟨-1, by decide, by norm_num⟩

/-- Counterexample for C3 as stated: the constant series of fifteen 1's is
monotonically non-increasing and longer than the period, yet
`calculateRSI` returns 100, not 0 (the average loss stays 0). -/
theorem C3_counterexample :
    List.Chain' (fun a b => b ≤ a)
      ([1, 1, 1, 1, 1, 1, 1, 1, 1, 1, 1, 1, 1, 1, 1] : List ℚ) ∧
    14 + 1 ≤ ([1, 1, 1, 1, 1, 1, 1, 1, 1, 1, 1, 1, 1, 1, 1] : List ℚ).length ∧
    TechnicalIndicators.calculateRSI
      ([1, 1, 1, 1, 1, 1, 1, 1, 1, 1, 1, 1, 1, 1, 1] : List ℚ) 14 = some 100 ∧
    TechnicalIndicators.calculateRSI
      ([1, 1, 1, 1, 1, 1, 1, 1, 1, 1, 1, 1, 1, 1, 1] : List ℚ) 14 ≠ some 0 := by
  refine ⟨by norm_num [List.chain'_cons], by norm_num, by decide, by decide⟩

/-- Witness for C4: on a 3-day series with `ma50History = [5]` (start index
2), empty `ma200History` (start index 3) and a one-point MACD history, the
day-2 row carries the MA50 and MACD values and a null MA200. -/
theorem C4_witness :
    ∃ row, (Stocks.assembleChartRows
        ⟨[0, 1, 2], [10, 11, 12], [10, 11, 12], [10, 11, 12], [10, 11, 12], [10, 11, 12]⟩
        [5] [] [⟨1, 2, 3⟩]).get? 2 = some row ∧
      row.ma50 ≠ none ∧ row.ma200 = none ∧ row.macd ≠ none := by
  obtain ⟨row, h1, h2, h3, h4⟩ := C4_chart_alignment
    ⟨[0, 1, 2], [10, 11, 12], [10, 11, 12], [10, 11, 12], [10, 11, 12], [10, 11, 12]⟩
    [5] [] [⟨1, 2, 3⟩] rfl (by decide) (by decide) (by decide) 2 (by decide)
  refine ⟨row, h1, h2.mpr (by decide), ?_, (h4.mpr (by decide)).1⟩
  exact not_not.mp (fun hne => absurd (h3.mp hne) (by decide))

/-- Counterexample for C5 as stated: when both providers fail, the fused
`getQuote` raises the primary's error verbatim; for the symbol `"AAPL"`
and an upstream timeout message, that error does not reference the symbol
(the fusion layer adds nothing to the message). -/
theorem C5_counterexample :
    StockService.getQuote (Except.error "timeout of 10000ms exceeded")
        (Except.error "secondary connection refused") =
      Except.error "timeout of 10000ms exceeded" ∧
    jsIncludes "timeout of 10000ms exceeded" "AAPL" = false :=
  ⟨rfl, by decide⟩

/-- Witness for C6: a two-holding batch in which the second holding's
attempt fails yields a normal record for the first and the degraded
`HOLD`/0 record for the second. -/
theorem C6_witness :
    ∃ advice,
      Analysis.holdingsRoute
          (fun h => if h.symbol = "BAD" then Except.error "boom"
            else Except.ok ⟨h.symbol, "BUY_MORE", 80, 1, 1, 1, "ok"⟩)
          [⟨"AAPL", some 10, some 12⟩, ⟨"BAD", some 5, some 4⟩] = Except.ok advice ∧
      advice.length = 2 ∧
      advice.get? 0 = some ⟨"AAPL", "BUY_MORE", 80, 1, 1, 1, "ok"⟩ ∧
      advice.get? 1 = some (Analysis.degradedAdvice ⟨"BAD", some 5, some 4⟩) := by
  obtain ⟨advice, h1, h2, h3⟩ := C6_holdings_batch_isolation
    (fun h => if h.symbol = "BAD" then Except.error "boom"
      else Except.ok ⟨h.symbol, "BUY_MORE", 80, 1, 1, 1, "ok"⟩)
    [⟨"AAPL", some 10, some 12⟩, ⟨"BAD", some 5, some 4⟩] (by simp)
  refine ⟨advice, h1, by rw [h2]; rfl, ?_, ?_⟩
  · exact (h3 0 ⟨"AAPL", some 10, some 12⟩ rfl).2 _ rfl
  · exact ((h3 1 ⟨"BAD", some 5, some 4⟩ rfl).1 "boom" rfl).1

/-- Witness for C7: on the 35-day linear ramp the history has one point per
running-MACD-line entry and its first point matches the per-index
specification. -/
theorem C7_witness :
    (TechnicalIndicators.calculateMACDHistory
        ((List.range 35).map (fun n => (n + 1 : ℚ))) 12 26 9).length =
      (TechnicalIndicators.macdLineSeq
        ((List.range 35).map (fun n => (n + 1 : ℚ))) 12 26).length ∧
    (TechnicalIndicators.calculateMACDHistory
        ((List.range 35).map (fun n => (n + 1 : ℚ))) 12 26 9).get? 0 =
      some (TechnicalIndicators.macdPointSpec
        (TechnicalIndicators.macdLineSeq
          ((List.range 35).map (fun n => (n + 1 : ℚ))) 12 26) 9 0) := by
  have h := C7_macd_history_points ((List.range 35).map (fun n => (n + 1 : ℚ)))
    12 26 9 (by decide)
  exact ⟨h.1, h.2 0 (by decide)⟩

/-- Counterexample for C7 as stated: on the 35-day series of squares, the
10th emitted point (whose running MACD-line sequence has 10 ≥ 9 entries)
carries a `signal` field that differs from the exact
`EMA(macdLineSequence, 9)` — the emitted field is its 4-decimal rounding. -/
theorem C7_counterexample :
    26 + 9 ≤ ((List.range 35).map (fun n => ((n + 1) * (n + 1) : ℚ))).length ∧
    9 ≤ ((TechnicalIndicators.macdLineSeq
      ((List.range 35).map (fun n => ((n + 1) * (n + 1) : ℚ))) 12 26).take 10).length ∧
    ((TechnicalIndicators.calculateMACDHistory
        ((List.range 35).map (fun n => ((n + 1) * (n + 1) : ℚ))) 12 26 9).get? 9).map
        TechnicalIndicators.MacdPoint.signal ≠
      some (TechnicalIndicators.calculateEMAFromArray
        ((TechnicalIndicators.macdLineSeq
          ((List.range 35).map (fun n => ((n + 1) * (n + 1) : ℚ))) 12 26).take 10) 9) := by
  refine ⟨by decide, by decide, by decide⟩

/-- Witness for C8: on a constant 20-day series (with the identity in place
of `Math.sqrt`, irrelevant here since the variance is 0) the returned
bands satisfy the rounded symmetry bound. -/
theorem C8_witness :
    ∃ b, TechnicalIndicators.calculateBollingerBands (fun v => v)
        (List.replicate 20 (1 : ℚ)) 20 2 = some b ∧
      |(b.upper - b.middle) - (b.middle - b.lower)| ≤ 1 / 50 :=
  (C8_bollinger_symmetry (fun v => v) (List.replicate 20 (1 : ℚ)) 20 2 (by decide)).2

/-- Counterexample for C8 as stated: a 20-day window with mean 1.004 and
exact standard deviation 0.001 (the square-root function returns the
exact root 1/1000 of the variance 1/1000000, as the accompanying product
equation shows) yields returned bands upper = 1.01, middle = 1.00,
lower = 1.00: `upper - middle = 0.01 ≠ 0 = middle - lower`, because each
band is formatted with `toFixed(2)` before being returned. -/
theorem C8_counterexample :
    TechnicalIndicators.calculateBollingerBands
        (fun v => if v = 1 / 1000000 then 1 / 1000 else 0)
        (List.replicate 10 (1005 / 1000 : ℚ) ++ List.replicate 10 (1003 / 1000)) 20 2 =
      some ⟨101 / 100, 1, 1⟩ ∧
    TechnicalIndicators.bollingerRaw
        (fun v => if v = 1 / 1000000 then 1 / 1000 else 0)
        (List.replicate 10 (1005 / 1000 : ℚ) ++ List.replicate 10 (1003 / 1000)) 20 2 =
      ⟨503 / 500, 251 / 250, 501 / 500⟩ ∧
    ((101 / 100 : ℚ) - 1 ≠ 1 - 1) ∧
    ((1 / 1000 : ℚ) * (1 / 1000) = 1 / 1000000 ∧ (0 : ℚ) ≤ 1 / 1000) := by
  refine ⟨by decide, by decide, by decide, by decide, by decide⟩

/-- Witness for C10: on `[1, 2, 3]` with period 2, the point SMA is 5/2 and
the last history entry is its (here exact) 2-decimal rounding. -/
theorem C10_witness :
    ∃ s, TechnicalIndicators.calculateSMA [1, 2, 3] 2 = some s ∧
      (TechnicalIndicators.calculateSMAHistory [1, 2, 3] 2).getLast? =
        some (toFixed2 s) ∧
      |toFixed2 s - s| ≤ 1 / 200 :=
  C10_sma_history_last [1, 2, 3] 2 (by norm_num)

end ConcreteEvaluations
